import Mathlib

/-!
Shallow embedding of the `neos` core (transforms + expected-CLs inference)
and proofs about it.  The transform functions are translated from
`nbs/03_transforms.ipynb`; the inference pipeline from the `neos.infer`
notebook.  External collaborators (`model_maker`, the constrained fitter,
`pyhf.tensorlib.normal_cdf`) enter as parameters, except the normal CDF,
which is the standard normal CDF and is defined here from the Gaussian
density.  `jnp.sqrt` of a negative number is NaN in the source backend;
that single partial operation is modelled with `Option`.
-/

namespace Neos

/-- Function `to_bounded_vec` from `nbs/03_transforms.ipynb`: with
`a = bounds[:, 0]`, `b = bounds[:, 1]`, computes
`a + (b - a) * 0.5 * (jnp.sin(param) + 1.0)` componentwise. -/
noncomputable def to_bounded_vec (param : List ℝ) (bounds : List (ℝ × ℝ)) : List ℝ :=
  List.zipWith (fun x ab => ab.1 + (ab.2 - ab.1) * 0.5 * (Real.sin x + 1.0)) param bounds

/-- Function `to_bounded` from `nbs/03_transforms.ipynb`: with `a, b = bounds`,
returns `a + (b - a) * 0.5 * (jnp.sin(param) + 1.0)`. -/
noncomputable def to_bounded (param : ℝ) (bounds : ℝ × ℝ) : ℝ :=
  bounds.1 + (bounds.2 - bounds.1) * 0.5 * (Real.sin param + 1.0)

/-- Function `to_inf_vec` from `nbs/03_transforms.ipynb`: with
`a = bounds[:, 0]`, `b = bounds[:, 1]`, computes
`x = (2.0 * param - a) / (b - a) - 1.0` and returns `jnp.arcsin(x)`
componentwise. -/
noncomputable def to_inf_vec (param : List ℝ) (bounds : List (ℝ × ℝ)) : List ℝ :=
  List.zipWith (fun y ab => Real.arcsin ((2.0 * y - ab.1) / (ab.2 - ab.1) - 1.0)) param bounds

/-- Function `to_inf` from `nbs/03_transforms.ipynb`: with `a, b = bounds`,
computes `x = (2.0 * param - a) / (b - a) - 1.0` and returns `jnp.arcsin(x)`.
Note the source divides `2.0 * param - a` (not `2.0 * (param - a)`) by `b - a`. -/
noncomputable def to_inf (param : ℝ) (bounds : ℝ × ℝ) : ℝ :=
  Real.arcsin ((2.0 * param - bounds.1) / (bounds.2 - bounds.1) - 1.0)

/-- The inverse transform as the spec and the notebook's markdown state it:
`arcsin (2 * (param - a) / (b - a) - 1)`.  Kept separate to compare with the
source's `to_inf` above. -/
noncomputable def to_inf_spec (param : ℝ) (bounds : ℝ × ℝ) : ℝ :=
  Real.arcsin (2 * (param - bounds.1) / (bounds.2 - bounds.1) - 1)

/-- Function `pyhf.tensorlib.normal_cdf`: the standard normal CDF,
`Φ x = ∫_{-∞}^{x} pdf(t) dt` for the Gaussian density with mean 0,
variance 1. -/
noncomputable def normal_cdf (x : ℝ) : ℝ :=
  ∫ t in Set.Iic x, ProbabilityTheory.gaussianPDFReal 0 1 t

/-- Interface of the external model object, as used by `get_expected_CLs`:
`expected_data`, `logpdf` (whose first element is used) and
`config.suggested_bounds()`. -/
structure Model where
  expected_data : List ℝ → List ℝ
  logpdf : List ℝ → List ℝ → List ℝ
  suggested_bounds : List (ℝ × ℝ)

/-- Solver keyword arguments.  `get_expected_CLs` reads only
`solver_kwargs.get("pdf_transform", False)`; `none` models an absent key. -/
structure SolverKwargs where
  pdf_transform : Option Bool

/-- Function `jnp.sqrt`: on a negative argument the floating-point result is
NaN, modelled as `none`. -/
noncomputable def jnp_sqrt (x : ℝ) : Option ℝ :=
  if 0 ≤ x then some (Real.sqrt x) else none

/-- Every intermediate assignment of one call of `get_expected_CLs`
(`neos.infer`), one field per source line.  `q_eff` is the argument of
`jnp.sqrt`, i.e. `jnp.where(muhat < test_mu, profile_likelihood, 0.0)`. -/
structure CLsRun where
  exp_data : List ℝ
  bounds : List (ℝ × ℝ)
  transforms : Bool
  initval : List ℝ
  numerator : List ℝ
  denominator : List ℝ
  profile_likelihood : ℝ
  muhat : ℝ
  q_eff : ℝ
  sqrtqmu : Option ℝ
  CLsb : Option ℝ
  CLb : ℝ
  CLs : Option ℝ

variable {P HP : Type}

/-- Body of `get_expected_CLs` from `neos.infer`, recording every
intermediate value.  `model_maker` and `c_fitter` (the result of
`constrained_fit(model_maker, **solver_kwargs)`) are the external
collaborators; `params`, `test_mu`, `hyperparams` are the call arguments. -/
noncomputable def runCLs (model_maker : P × HP → Model × List ℝ)
    (solver_kwargs : SolverKwargs)
    (c_fitter : List ℝ → (P × HP) × ℝ → List ℝ)
    (params : P) (test_mu : ℝ) (hyperparams : HP) : CLsRun :=
  let mk := model_maker (params, hyperparams)
  let m := mk.1
  let bonlypars := mk.2
  let exp_data := m.expected_data bonlypars
  let bounds := m.suggested_bounds
  let transforms := solver_kwargs.pdf_transform.getD false
  let initval := if transforms then to_inf_vec [test_mu, 1.0] bounds else [test_mu, 1.0]
  let fitres := c_fitter initval ((params, hyperparams), test_mu)
  let numerator := if transforms then to_bounded_vec fitres bounds else fitres
  let denominator := bonlypars
  let profile_likelihood := -2 * ((m.logpdf numerator exp_data).getD 0 0 -
    (m.logpdf denominator exp_data).getD 0 0)
  let muhat := denominator.getD 0 0
  let q_eff := if muhat < test_mu then profile_likelihood else 0.0
  let sqrtqmu := jnp_sqrt q_eff
  let CLsb := sqrtqmu.map (fun s => 1 - normal_cdf s)
  let CLb := 1 - normal_cdf 0
  let CLs := CLsb.map (fun v => v / CLb)
  { exp_data := exp_data, bounds := bounds, transforms := transforms,
    initval := initval, numerator := numerator, denominator := denominator,
    profile_likelihood := profile_likelihood, muhat := muhat, q_eff := q_eff,
    sqrtqmu := sqrtqmu, CLsb := CLsb, CLb := CLb, CLs := CLs }

/-- The dictionary `dict(CLs=CLs, p_sb=CLsb, p_b=CLb)` of one run.  Values
carry `Option` because `CLsb` and `CLs` may be NaN; `p_b` is always a plain
number. -/
noncomputable def pdict (r : CLsRun) : List (String × Option ℝ) :=
  [("CLs", r.CLs), ("p_sb", r.CLsb), ("p_b", some r.CLb)]

/-- The list comprehension `[pdict[key] for key in pvalues]`: a key missing
from the dictionary raises `KeyError`, modelled as `none` for the whole
call. -/
def selectPvalues (d : List (String × Option ℝ)) : List String → Option (List (Option ℝ))
  | [] => some []
  | k :: ks =>
    match d.lookup k with
    | none => none
    | some v => (selectPvalues d ks).map (fun l => v :: l)

/-- Function `get_expected_CLs` from `neos.infer`: the full call, returning
the sequence of requested p-values, or `none` on a `KeyError` for an
unrecognized key. -/
noncomputable def get_expected_CLs (model_maker : P × HP → Model × List ℝ)
    (solver_kwargs : SolverKwargs)
    (c_fitter : List ℝ → (P × HP) × ℝ → List ℝ)
    (params : P) (test_mu : ℝ) (hyperparams : HP)
    (pvalues : List String) : Option (List (Option ℝ)) :=
  selectPvalues
    (pdict (runCLs model_maker solver_kwargs c_fitter params test_mu hyperparams)) pvalues

/-- A concrete two-parameter model used to instantiate theorems: `logpdf`
returns the first parameter component, `expected_data` returns no data. -/
noncomputable def testModel : Model where
  expected_data := fun _ => []
  logpdf := fun pars _ => [pars.getD 0 0]
  suggested_bounds := [(0, 10), (0, 10)]

/-- A concrete model maker returning `testModel` with background-only
parameters `[0, 1]`. -/
noncomputable def testMaker : Unit × Unit → Model × List ℝ := fun _ => (testModel, [0, 1])

/-- A concrete constrained fitter returning the fixed point `[2, 0]`. -/
noncomputable def testFitter : List ℝ → (Unit × Unit) × ℝ → List ℝ := fun _ _ => [2, 0]

/-- The standard normal density is even. -/
lemma gaussianPDFReal_even (x : ℝ) :
    ProbabilityTheory.gaussianPDFReal 0 1 (-x) =
      ProbabilityTheory.gaussianPDFReal 0 1 x := by
  simp [ProbabilityTheory.gaussianPDFReal, neg_sq]

open MeasureTheory ProbabilityTheory Set in
/-- Value of the standard normal CDF at its mean: one half. -/
lemma normal_cdf_zero : normal_cdf 0 = 1 / 2 := by
  have hint : Integrable (gaussianPDFReal 0 1) := integrable_gaussianPDFReal 0 1
  have htot : (∫ t in Iic (0 : ℝ), gaussianPDFReal 0 1 t) +
      (∫ t in Ioi (0 : ℝ), gaussianPDFReal 0 1 t) = 1 := by
    rw [intervalIntegral.integral_Iic_add_Ioi hint.integrableOn hint.integrableOn]
    exact integral_gaussianPDFReal_eq_one 0 one_ne_zero
  have hsym : (∫ t in Iic (0 : ℝ), gaussianPDFReal 0 1 t) =
      ∫ t in Ioi (0 : ℝ), gaussianPDFReal 0 1 t := by
    have h1 : (∫ t in Iic (0 : ℝ), gaussianPDFReal 0 1 (-t)) =
        ∫ t in Ioi (-(0 : ℝ)), gaussianPDFReal 0 1 t :=
      integral_comp_neg_Iic 0 (gaussianPDFReal 0 1)
    simpa [gaussianPDFReal_even] using h1
  unfold normal_cdf
  linarith

/-- Projection lemmas for `runCLs`: each field equals the source expression
computing it. -/
lemma runCLs_q_eff_def (mm : P × HP → Model × List ℝ) (sk : SolverKwargs)
    (cf : List ℝ → (P × HP) × ℝ → List ℝ) (p : P) (tmu : ℝ) (hp : HP) :
    (runCLs mm sk cf p tmu hp).q_eff =
      (if (runCLs mm sk cf p tmu hp).muhat < tmu
        then (runCLs mm sk cf p tmu hp).profile_likelihood else 0.0) := rfl

lemma runCLs_sqrtqmu_def (mm : P × HP → Model × List ℝ) (sk : SolverKwargs)
    (cf : List ℝ → (P × HP) × ℝ → List ℝ) (p : P) (tmu : ℝ) (hp : HP) :
    (runCLs mm sk cf p tmu hp).sqrtqmu =
      jnp_sqrt ((runCLs mm sk cf p tmu hp).q_eff) := rfl

lemma runCLs_CLsb_def (mm : P × HP → Model × List ℝ) (sk : SolverKwargs)
    (cf : List ℝ → (P × HP) × ℝ → List ℝ) (p : P) (tmu : ℝ) (hp : HP) :
    (runCLs mm sk cf p tmu hp).CLsb =
      ((runCLs mm sk cf p tmu hp).sqrtqmu).map (fun s => 1 - normal_cdf s) := rfl

lemma runCLs_CLb_def (mm : P × HP → Model × List ℝ) (sk : SolverKwargs)
    (cf : List ℝ → (P × HP) × ℝ → List ℝ) (p : P) (tmu : ℝ) (hp : HP) :
    (runCLs mm sk cf p tmu hp).CLb = 1 - normal_cdf 0 := rfl

/-- Lookup in the p-value dictionary, resolved key by key. -/
lemma pdict_lookup (r : CLsRun) (k : String) :
    (pdict r).lookup k =
      if k = "CLs" then some r.CLs
      else if k = "p_sb" then some r.CLsb
      else if k = "p_b" then some (some r.CLb)
      else none := by
  by_cases h1 : k = "CLs"
  · simp [pdict, List.lookup, beq_iff_eq, h1]
  · have e1 : (k == "CLs") = false := beq_eq_false_iff_ne.mpr h1
    by_cases h2 : k = "p_sb"
    · simp [pdict, List.lookup, beq_iff_eq, e1, h1, h2]
    · have e2 : (k == "p_sb") = false := beq_eq_false_iff_ne.mpr h2
      by_cases h3 : k = "p_b"
      · simp [pdict, List.lookup, beq_iff_eq, e1, e2, h1, h2, h3]
      · have e3 : (k == "p_b") = false := beq_eq_false_iff_ne.mpr h3
        simp [pdict, List.lookup, e1, e2, e3, h1, h2, h3]

/-- A key whose lookup fails anywhere in the requested list makes the whole
selection fail. -/
lemma selectPvalues_eq_none {d : List (String × Option ℝ)} {ks : List String}
    (h : ∃ k ∈ ks, d.lookup k = none) : selectPvalues d ks = none := by
  induction ks with
  | nil => simp at h
  | cons k ks ih =>
    obtain ⟨k0, hk0, hnone⟩ := h
    rcases List.mem_cons.mp hk0 with heq | hmem
    · subst heq
      simp [selectPvalues, hnone]
    · cases hl : d.lookup k with
      | none => simp [selectPvalues, hl]
      | some v => simp [selectPvalues, hl, ih ⟨k0, hmem, hnone⟩]

/-- When every requested key resolves, the selection returns the looked-up
values in request order. -/
lemma selectPvalues_eq_some {d : List (String × Option ℝ)} {ks : List String}
    (h : ∀ k ∈ ks, (d.lookup k).isSome) :
    selectPvalues d ks = some (ks.map (fun k => (d.lookup k).getD none)) := by
  induction ks with
  | nil => simp [selectPvalues]
  | cons k ks ih =>
    have hk := h k (List.mem_cons_self k ks)
    cases hl : d.lookup k with
    | none => rw [hl] at hk; simp at hk
    | some v =>
      have hrest := ih (fun k2 hk2 => h k2 (List.mem_cons_of_mem _ hk2))
      simp [selectPvalues, hl, hrest]

/-- C1: the claim states `to_inf(y, (a,b)) = arcsin(2*(y-a)/(b-a) - 1)` with
the arcsin argument in [-1, 1] for y in [a, b].  The source instead computes
`arcsin((2*y - a)/(b-a) - 1)`: at y = 1, bounds (1, 2) the source returns
arcsin 0 = 0 (scalar and vector variants alike) while the stated formula
gives arcsin (-1) = -π/2, and at y = 2 ∈ [1, 2] the source's arcsin argument
is 2, outside [-1, 1]. -/
theorem C1_to_inf_formula_bug :
    to_inf 1 (1, 2) = 0 ∧
    to_inf_spec 1 (1, 2) = -(Real.pi / 2) ∧
    to_inf 1 (1, 2) ≠ to_inf_spec 1 (1, 2) ∧
    to_inf_vec [1] [(1, 2)] = [0] ∧
    1 < (2.0 * 2 - 1) / ((2 : ℝ) - 1) - 1.0 := by
  have h0 : to_inf 1 (1, 2) = 0 := by
    unfold to_inf
    norm_num [Real.arcsin_zero]
  have hs : to_inf_spec 1 (1, 2) = -(Real.pi / 2) := by
    unfold to_inf_spec
    norm_num [Real.arcsin_neg_one]
  refine ⟨h0, hs, ?_, ?_, by norm_num⟩
  · rw [h0, hs]
    have hpi := Real.pi_pos
    intro hc
    linarith [hc.ge, hc.le]
  · simp only [to_inf_vec, List.zipWith]
    norm_num [Real.arcsin_zero]

/-- C2: the two directions are claimed composably inverse up to
floating-point tolerance (for instance 1e-6).  For the vector x = [0]
(component inside [-π/2, π/2]) and bounds (1, 2) with lower < upper, the
source computes `to_inf_vec(to_bounded_vec([0])) = [π/2]`, off by π/2;
and for y = 1.5 strictly inside (1, 2),
`to_bounded(to_inf(1.5, (1,2)), (1,2)) = 2`, off by 0.5 — both far beyond
tolerance, because `to_inf` divides `2*y - a` instead of `2*(y - a)` by
`b - a`. -/
theorem C2_round_trip_fails :
    to_inf_vec (to_bounded_vec [0] [(1, 2)]) [(1, 2)] = [Real.pi / 2] ∧
    (1e-6 : ℝ) < |Real.pi / 2 - 0| ∧
    to_bounded (to_inf 1.5 (1, 2)) (1, 2) = 2 ∧
    (1e-6 : ℝ) < |(2 : ℝ) - 1.5| := by
  have hpi := Real.pi_gt_three
  refine ⟨?_, ?_, ?_, by rw [abs_of_pos] <;> norm_num⟩
  · simp only [to_inf_vec, to_bounded_vec, List.zipWith]
    norm_num [Real.sin_zero, Real.arcsin_one]
  · rw [sub_zero, abs_of_pos (by linarith)]
    norm_num
    linarith
  · unfold to_inf to_bounded
    norm_num [Real.arcsin_one, Real.sin_pi_div_two]

/-- C8 counterexample: the claim says a transform applied to a bound pair
with lower ≥ upper fails with a `DegenerateBounds` error; the source has no
validation at all and silently returns a value, e.g.
`to_bounded(0, (5, 3)) = 4`. -/
theorem C8_counterexample : to_bounded 0 (5, 3) = 4 := by
  unfold to_bounded
  norm_num [Real.sin_zero]

/-- C8 amended: `to_bounded` performs no bounds validation; for lower ≥
upper it still evaluates its formula and silently returns a value lying in
the reversed interval [upper, lower], and `to_bounded_vec` applies the same
scalar formula independently per component, so it likewise returns values. -/
theorem C8_degenerate_bounds_silent (a b x : ℝ) (h : b ≤ a) :
    to_bounded x (a, b) = a + (b - a) * 0.5 * (Real.sin x + 1.0) ∧
    to_bounded x (a, b) ∈ Set.Icc b a ∧
    ∀ (params : List ℝ) (bounds : List (ℝ × ℝ)),
      to_bounded_vec params bounds =
        List.zipWith (fun y ab => to_bounded y ab) params bounds := by
  refine ⟨rfl, ?_, fun params bounds => rfl⟩
  have hs1 := Real.neg_one_le_sin x
  have hs2 := Real.sin_le_one x
  rw [Set.mem_Icc]
  unfold to_bounded
  constructor <;> nlinarith

/-- C8 amended, witness at bounds (5, 3), input 0. -/
theorem C8_degenerate_bounds_silent_witness :
    to_bounded 0 (5, 3) ∈ Set.Icc (3 : ℝ) 5 :=
  (C8_degenerate_bounds_silent 5 3 0 (by norm_num)).2.1

/-- C9: for every bound pair (a, b) with a < b and every real x, `to_bounded`
computes `a + (b-a)/2 * (sin x + 1)` and the result lies in the closed
interval [a, b]; the function is total on the real line. -/
theorem C9_to_bounded_in_bounds (a b x : ℝ) (h : a < b) :
    to_bounded x (a, b) = a + (b - a) * 0.5 * (Real.sin x + 1.0) ∧
    to_bounded x (a, b) ∈ Set.Icc a b := by
  refine ⟨rfl, ?_⟩
  have hs1 := Real.neg_one_le_sin x
  have hs2 := Real.sin_le_one x
  rw [Set.mem_Icc]
  unfold to_bounded
  constructor <;> nlinarith

/-- C9 witness at bounds (0, 2), input 0. -/
theorem C9_to_bounded_in_bounds_witness :
    to_bounded 0 (0, 2) ∈ Set.Icc (0 : ℝ) 2 :=
  (C9_to_bounded_in_bounds 0 2 0 (by norm_num)).2

/-- C3 counterexample: the claim states
`sqrtqmu = sqrt(max(q_effective, 0))`, never NaN.  At a concrete model with
muhat = 0 < 1 = test_mu and profile-likelihood statistic q = -4, the source's
`jnp.where(muhat < test_mu, q, 0.0)` selects the unclamped -4 (whereas
max(q, 0) = 0), so the square root is taken of a negative number — NaN. -/
theorem C3_counterexample :
    (runCLs testMaker ⟨none⟩ testFitter () 1 ()).q_eff = -4 ∧
    max (-4 : ℝ) 0 = 0 ∧
    (runCLs testMaker ⟨none⟩ testFitter () 1 ()).sqrtqmu = none := by
  refine ⟨?_, by norm_num, ?_⟩
  · simp [runCLs, testMaker, testFitter, testModel]
    norm_num
  · simp [runCLs, testMaker, testFitter, testModel, jnp_sqrt]

/-- C3 amended: the source computes
`sqrtqmu = jnp.sqrt(jnp.where(muhat < test_mu, profile_likelihood, 0.0))`
with no clamp at zero.  Whenever the selected argument is nonnegative the
result is a nonnegative real number; when muhat < test_mu and the statistic
is negative, the square root's argument is negative and the result is NaN. -/
theorem C3_sqrt_where (mm : P × HP → Model × List ℝ) (sk : SolverKwargs)
    (cf : List ℝ → (P × HP) × ℝ → List ℝ) (p : P) (tmu : ℝ) (hp : HP) :
    (runCLs mm sk cf p tmu hp).q_eff =
      (if (runCLs mm sk cf p tmu hp).muhat < tmu
        then (runCLs mm sk cf p tmu hp).profile_likelihood else 0) ∧
    (0 ≤ (runCLs mm sk cf p tmu hp).q_eff →
      (runCLs mm sk cf p tmu hp).sqrtqmu =
        some (Real.sqrt ((runCLs mm sk cf p tmu hp).q_eff)) ∧
      ∀ s, (runCLs mm sk cf p tmu hp).sqrtqmu = some s → 0 ≤ s) ∧
    ((runCLs mm sk cf p tmu hp).q_eff < 0 →
      (runCLs mm sk cf p tmu hp).sqrtqmu = none) := by
  refine ⟨?_, ?_, ?_⟩
  · rw [runCLs_q_eff_def]
    norm_num
  · intro hq
    rw [runCLs_sqrtqmu_def]
    unfold jnp_sqrt
    rw [if_pos hq]
    refine ⟨rfl, ?_⟩
    intro s hed
    have := Option.some_injective ℝ hed.symm
    rw [this]
    exact Real.sqrt_nonneg _
  · intro hq
    rw [runCLs_sqrtqmu_def]
    unfold jnp_sqrt
    rw [if_neg (not_le.mpr hq)]

/-- C3 amended, witness: at test_mu = 0 the branch condition muhat < test_mu
is false, the sqrt argument is 0 and the result is a real number. -/
theorem C3_sqrt_where_witness :
    (runCLs testMaker ⟨none⟩ testFitter () 0 ()).sqrtqmu =
      some (Real.sqrt ((runCLs testMaker ⟨none⟩ testFitter () 0 ()).q_eff)) := by
  have hq : (0 : ℝ) ≤ (runCLs testMaker ⟨none⟩ testFitter () 0 ()).q_eff := by
    have : (runCLs testMaker ⟨none⟩ testFitter () 0 ()).q_eff = 0 := by
      simp [runCLs, testMaker, testFitter, testModel]
      norm_num
    rw [this]
  exact ((C3_sqrt_where testMaker ⟨none⟩ testFitter () 0 ()).2.1 hq).1

/-- C4: when muhat ≥ test_mu (boundary muhat = test_mu included) the
statistic is zeroed by the `jnp.where` branch, so sqrtqmu = 0 and
CLsb = 1 - Φ(0) = 0.5; when muhat < test_mu the unmodified
profile-likelihood statistic is the sqrt argument. -/
theorem C4_zeroing_branch (mm : P × HP → Model × List ℝ) (sk : SolverKwargs)
    (cf : List ℝ → (P × HP) × ℝ → List ℝ) (p : P) (tmu : ℝ) (hp : HP) :
    (¬ (runCLs mm sk cf p tmu hp).muhat < tmu →
      (runCLs mm sk cf p tmu hp).sqrtqmu = some 0 ∧
      (runCLs mm sk cf p tmu hp).CLsb = some (1 / 2)) ∧
    ((runCLs mm sk cf p tmu hp).muhat < tmu →
      (runCLs mm sk cf p tmu hp).q_eff =
        (runCLs mm sk cf p tmu hp).profile_likelihood) := by
  constructor
  · intro h
    have hq : (runCLs mm sk cf p tmu hp).q_eff = 0 := by
      rw [runCLs_q_eff_def, if_neg h]
      norm_num
    have hs : (runCLs mm sk cf p tmu hp).sqrtqmu = some 0 := by
      rw [runCLs_sqrtqmu_def, hq]
      unfold jnp_sqrt
      rw [if_pos le_rfl, Real.sqrt_zero]
    refine ⟨hs, ?_⟩
    rw [runCLs_CLsb_def, hs, Option.map_some', normal_cdf_zero]
    norm_num
  · intro h
    rw [runCLs_q_eff_def, if_pos h]

/-- C4 witness at the boundary muhat = test_mu = 0. -/
theorem C4_zeroing_branch_witness :
    (runCLs testMaker ⟨none⟩ testFitter () 0 ()).sqrtqmu = some 0 ∧
    (runCLs testMaker ⟨none⟩ testFitter () 0 ()).CLsb = some (1 / 2) := by
  have hmu : (runCLs testMaker ⟨none⟩ testFitter () 0 ()).muhat = 0 := by
    simp [runCLs, testMaker, testFitter, testModel]
  exact (C4_zeroing_branch testMaker ⟨none⟩ testFitter () 0 ()).1
    (by rw [hmu]; exact lt_irrefl 0)

/-- C5: the denominator is set directly to the background-only point
returned by the model maker (no global fit exists in the computation), the
expected data is generated under that same point, and the statistic is
`q = -2 * (logpdf(numerator, exp_data)[0] - logpdf(denominator, exp_data)[0])`. -/
theorem C5_denominator_shortcut (mm : P × HP → Model × List ℝ) (sk : SolverKwargs)
    (cf : List ℝ → (P × HP) × ℝ → List ℝ) (p : P) (tmu : ℝ) (hp : HP) :
    (runCLs mm sk cf p tmu hp).denominator = (mm (p, hp)).2 ∧
    (runCLs mm sk cf p tmu hp).exp_data =
      (mm (p, hp)).1.expected_data ((mm (p, hp)).2) ∧
    (runCLs mm sk cf p tmu hp).profile_likelihood =
      -2 * (((mm (p, hp)).1.logpdf ((runCLs mm sk cf p tmu hp).numerator)
              ((runCLs mm sk cf p tmu hp).exp_data)).getD 0 0 -
            ((mm (p, hp)).1.logpdf ((runCLs mm sk cf p tmu hp).denominator)
              ((runCLs mm sk cf p tmu hp).exp_data)).getD 0 0) :=
  ⟨rfl, rfl, rfl⟩

/-- C6: CLb = 1 - Φ(0) = 0.5 in every invocation, independent of the model,
parameters, test_mu and hyperparameters; `pvalues=["p_b"]` returns the
single-element sequence [0.5]; and CLs is CLsb / CLb. -/
theorem C6_CLb_half (mm : P × HP → Model × List ℝ) (sk : SolverKwargs)
    (cf : List ℝ → (P × HP) × ℝ → List ℝ) (p : P) (tmu : ℝ) (hp : HP) :
    (runCLs mm sk cf p tmu hp).CLb = 1 / 2 ∧
    get_expected_CLs mm sk cf p tmu hp ["p_b"] = some [some (1 / 2)] ∧
    (runCLs mm sk cf p tmu hp).CLs =
      ((runCLs mm sk cf p tmu hp).CLsb).map
        (fun v => v / (runCLs mm sk cf p tmu hp).CLb) := by
  have hb : (runCLs mm sk cf p tmu hp).CLb = 1 / 2 := by
    rw [runCLs_CLb_def, normal_cdf_zero]
    norm_num
  refine ⟨hb, ?_, rfl⟩
  unfold get_expected_CLs
  rw [show ["p_b"] = "p_b" :: ([] : List String) from rfl]
  unfold selectPvalues
  rw [pdict_lookup, if_neg (by decide), if_neg (by decide), if_pos rfl]
  simp [selectPvalues, hb]

/-- C7: a pvalues list containing a string outside {CLs, p_sb, p_b} makes
the call fail (the dictionary lookup raises `KeyError`); a list of
recognized keys yields a sequence of the same length with the elements in
the order of the requested keys. -/
theorem C7_pvalue_selection (mm : P × HP → Model × List ℝ) (sk : SolverKwargs)
    (cf : List ℝ → (P × HP) × ℝ → List ℝ) (p : P) (tmu : ℝ) (hp : HP)
    (pvs : List String) :
    ((∃ k ∈ pvs, k ∉ (["CLs", "p_sb", "p_b"] : List String)) →
      get_expected_CLs mm sk cf p tmu hp pvs = none) ∧
    ((∀ k ∈ pvs, k ∈ (["CLs", "p_sb", "p_b"] : List String)) →
      ∃ l, get_expected_CLs mm sk cf p tmu hp pvs = some l ∧
        l.length = pvs.length ∧
        l = pvs.map (fun k =>
          (((pdict (runCLs mm sk cf p tmu hp)).lookup k).getD none))) := by
  constructor
  · intro hbad
    obtain ⟨k, hk, hnot⟩ := hbad
    unfold get_expected_CLs
    apply selectPvalues_eq_none
    refine ⟨k, hk, ?_⟩
    rw [pdict_lookup]
    simp only [List.mem_cons, List.not_mem_nil, or_false, not_or] at hnot
    rw [if_neg hnot.1, if_neg hnot.2.1, if_neg hnot.2.2]
  · intro hgood
    have hsome : ∀ k ∈ pvs, ((pdict (runCLs mm sk cf p tmu hp)).lookup k).isSome := by
      intro k hk
      have := hgood k hk
      rw [pdict_lookup]
      simp only [List.mem_cons, List.not_mem_nil, or_false] at this
      rcases this with h | h | h <;> simp [h]
    refine ⟨_, selectPvalues_eq_some hsome, List.length_map _ _, rfl⟩

/-- C7 witness: requesting the unrecognized key "bad" fails. -/
theorem C7_pvalue_selection_witness :
    get_expected_CLs testMaker ⟨none⟩ testFitter () 1 () ["CLs", "bad"] = none :=
  (C7_pvalue_selection testMaker ⟨none⟩ testFitter () 1 () ["CLs", "bad"]).1
    ⟨"bad", by simp, by simp⟩

/-- C10: the `pdf_transform` flag is read with default False when absent; in
that case the initial point [test_mu, 1.0] goes to the constrained fit
unchanged and the fit result is used directly as the numerator; when the
flag is true the initial point is first mapped through `to_inf_vec` and the
fit result is mapped back through `to_bounded_vec` before becoming the
numerator. -/
theorem C10_pdf_transform_flag (mm : P × HP → Model × List ℝ) (sk : SolverKwargs)
    (cf : List ℝ → (P × HP) × ℝ → List ℝ) (p : P) (tmu : ℝ) (hp : HP) :
    (sk.pdf_transform = none →
      (runCLs mm sk cf p tmu hp).transforms = false ∧
      (runCLs mm sk cf p tmu hp).initval = [tmu, 1.0] ∧
      (runCLs mm sk cf p tmu hp).numerator = cf [tmu, 1.0] ((p, hp), tmu)) ∧
    (sk.pdf_transform = some false →
      (runCLs mm sk cf p tmu hp).transforms = false ∧
      (runCLs mm sk cf p tmu hp).initval = [tmu, 1.0] ∧
      (runCLs mm sk cf p tmu hp).numerator = cf [tmu, 1.0] ((p, hp), tmu)) ∧
    (sk.pdf_transform = some true →
      (runCLs mm sk cf p tmu hp).transforms = true ∧
      (runCLs mm sk cf p tmu hp).initval =
        to_inf_vec [tmu, 1.0] ((runCLs mm sk cf p tmu hp).bounds) ∧
      (runCLs mm sk cf p tmu hp).numerator =
        to_bounded_vec
          (cf (to_inf_vec [tmu, 1.0] ((runCLs mm sk cf p tmu hp).bounds)) ((p, hp), tmu))
          ((runCLs mm sk cf p tmu hp).bounds)) := by
  refine ⟨?_, ?_, ?_⟩ <;> intro h <;>
    refine ⟨?_, ?_, ?_⟩ <;> simp [runCLs, h]

/-- C10 witness: with the key absent, the fit is called on the untransformed
initial point [test_mu, 1.0] and its result is the numerator unchanged. -/
theorem C10_pdf_transform_flag_witness :
    (runCLs testMaker ⟨none⟩ testFitter () 1 ()).transforms = false ∧
    (runCLs testMaker ⟨none⟩ testFitter () 1 ()).numerator =
      testFitter [1, 1.0] (((), ()), 1) :=
  ⟨((C10_pdf_transform_flag testMaker ⟨none⟩ testFitter () 1 ()).1 rfl).1,
   ((C10_pdf_transform_flag testMaker ⟨none⟩ testFitter () 1 ()).1 rfl).2.2⟩

end Neos
